import Mathlib

/-!
Shallow embedding of `drf_addons_plus/filters.py` (classes `ConditionalFilter`
and `FieldsFilter`) together with the framework values they manipulate
(request query parameters, querysets, `django.db.models.Q` predicate trees,
model metadata, serializer field declarations).  Machinery the file merely
calls into (Django model introspection, `rest_framework` helpers) is modelled
by explicit Lean data so that every function of the source file becomes an
executable Lean function.
-/

namespace DrfPlus

/-- Values that the two filter backends place inside a `Q` predicate:
booleans (conditional filter) and strings (search terms). -/
inductive QVal where
| b (v : Bool)
| s (v : String)
deriving DecidableEq, Repr

/-- Tree of `django.db.models.Q` objects as built by this file.
`kwleaf l v` models `models.Q(**\x7bl: v\x7d)` (a keyword argument, the form the
conditional filter uses); `dictleaf l v` models `models.Q(\x7bl: v\x7d)` (a `dict`
passed positionally, the form `FieldsFilter.filter_queryset` uses);
`pand`/`por` model `operator.and_`/`operator.or_` on `Q` objects. -/
inductive Pred where
| kwleaf (lookup : String) (v : QVal)
| dictleaf (lookup : String) (v : QVal)
| pand (p q : Pred)
| por (p q : Pred)
deriving DecidableEq, Repr

/-- Errors the embedded code can raise.  `improperlyConfigured` models
`django.core.exceptions.ImproperlyConfigured`; `indexError` models a Python
`IndexError` from indexing `s[0]` on an empty string; `typeError` models the
`TypeError` of `functools.reduce` on an empty iterable. -/
inductive PyErr where
| improperlyConfigured (msg : String)
| indexError
| typeError
deriving DecidableEq, Repr

/-- Django model metadata as used by this file: the primary-key field name
(`opts.pk.name`), the concrete fields with, per field, an optional related
model (`field.path_infos[-1].to_opts`, present exactly when the field has
`path_infos`) and the names for which `field.get_lookup` returns a lookup;
the names of `property` attributes found on the model class by `dir()`; and
`_meta.fields` as `(name, verbose_name)` pairs. -/
inductive Model where
| mk (pk : String) (fields : List (String × Option Model × List String))
     (propertyNames : List String) (metaFields : List (String × String))

/-- Primary key field name, `opts.pk.name`. -/
def Model.pkName : Model → String
| .mk pk _ _ _ => pk

/-- Field table of the model. -/
def Model.fieldsOf : Model → List (String × Option Model × List String)
| .mk _ fs _ _ => fs

/-- Names of `property` attributes of the model class. -/
def Model.propertyNamesOf : Model → List String
| .mk _ _ ps _ => ps

/-- The `(name, verbose_name)` pairs of `queryset.model._meta.fields`. -/
def Model.metaFieldsOf : Model → List (String × String)
| .mk _ _ _ ms => ms

/-- Models `opts.get_field(name)`: `none` plays the role of
`FieldDoesNotExist`. -/
def Model.get_field (m : Model) (n : String) : Option (Option Model × List String) :=
  (m.fieldsOf.find? (fun e => e.1 == n)).map (·.2)

/-- A queryset: its model, its query annotations (`queryset.query.annotations`
keys) and the list of `Q` predicates applied so far by `.filter(...)` calls. -/
structure QuerySet where
  model : Model
  annotations : List String
  applied : List Pred

/-- Models `queryset.filter(pred)`: the predicate is recorded and the rest of
the queryset is unchanged. -/
def QuerySet.filter (qs : QuerySet) (p : Pred) : QuerySet :=
  { qs with applied := qs.applied ++ [p] }

/-- An HTTP request reduced to its query parameters, an association list. -/
structure Request where
  params : List (String × String)

/-- Models `request.query_params.get(key)` (first binding wins, `None` when
absent). -/
def Request.get (r : Request) (key : String) : Option String :=
  (r.params.find? (fun e => e.1 == key)).map (·.2)

/-- Models `functools.reduce(operator.and_, l)`: a left fold, raising
`TypeError` on an empty list. -/
def pyReduceAnd : List Pred → Except PyErr Pred
| [] => .error .typeError
| p :: ps => .ok (ps.foldl Pred.pand p)

/-- Models `functools.reduce(operator.or_, l)`: a left fold, raising
`TypeError` on an empty list. -/
def pyReduceOr : List Pred → Except PyErr Pred
| [] => .error .typeError
| p :: ps => .ok (ps.foldl Pred.por p)

/-- Splits a character list at every comma, keeping empty pieces, the
accumulator holding the current piece reversed. -/
def pySplitCommaAux : List Char → List Char → List (List Char)
| [], acc => [acc.reverse]
| c :: cs, acc =>
    if c = ',' then acc.reverse :: pySplitCommaAux cs []
    else pySplitCommaAux cs (c :: acc)

/-- Models Python `s.split(',')`. -/
def pySplitOnComma (s : String) : List String :=
  (pySplitCommaAux s.data []).map String.mk

/-- Splits a character list at every leftmost non-overlapping `__`, keeping
empty pieces. -/
def pySplitDunderAux : List Char → List Char → List (List Char)
| [], acc => [acc.reverse]
| '_' :: '_' :: cs, acc => acc.reverse :: pySplitDunderAux cs []
| c :: cs, acc => pySplitDunderAux cs (c :: acc)

/-- Models Python `s.split('__')`, the split on
`django.db.models.constants.LOOKUP_SEP`. -/
def pySplitOnDunder (s : String) : List String :=
  (pySplitDunderAux s.data []).map String.mk

/-- Models Python `s.strip()`: drop leading and trailing whitespace. -/
def pyStrip (s : String) : String :=
  String.mk (((s.data.dropWhile Char.isWhitespace).reverse.dropWhile
    Char.isWhitespace).reverse)

/-- Models Python `s.replace('.', '__')`. -/
def pyReplaceDots (s : String) : String :=
  String.mk (s.data.flatMap (fun c => if c = '.' then ['_', '_'] else [c]))

/-- Models the Python test `s.startswith("-")` via the character data. -/
def pyStartsDash (s : String) : Bool :=
  match s.data with
  | '-' :: _ => true
  | _ => false

/-- Models Python `s[1:]`. -/
def pyDropFirst (s : String) : String :=
  match s.data with
  | [] => ""
  | _ :: t => String.mk t

/-- A declared serializer field as seen by `get_default_valid_fields`:
its `source`, `label` and `write_only` flag. -/
structure SerializerField where
  source : String
  label : String
  write_only : Bool
deriving DecidableEq, Repr

/-- A serializer class, reduced to `serializer_class(context=...).fields`,
modelled as a fixed association list (the source only iterates `.items()`;
the instantiation context does not affect the declared fields here). -/
structure SerializerClass where
  fields : List (String × SerializerField)
deriving DecidableEq, Repr

/-- Labels attached to valid fields: serializer labels and explicit entries
are strings, but the `__all__` branch attaches `key.title().split('__')`,
a list of strings, so both shapes are represented. -/
inductive Label where
| str (s : String)
| list (l : List String)
deriving DecidableEq, Repr

/-- The `view.conditional` attribute: Python allows a bare string or a
sequence of strings (absence is `Option.none` at the use site). -/
inductive PyCond where
| pystr (s : String)
| pyseq (l : List String)
deriving DecidableEq, Repr

/-- Entries of an explicit `conditional_fields` list: a bare string or a
`(name, label)` pair. -/
inductive CondFieldItem where
| single (s : String)
| pair (name lbl : String)
deriving DecidableEq, Repr

/-- The `conditional_fields` attribute: the sentinel `'__all__'` or an
explicit list (absence is `Option.none` at the use site). -/
inductive CondFieldsSpec where
| all
| list (items : List CondFieldItem)
deriving DecidableEq, Repr

/-- The host view as consumed by `ConditionalFilter`: the optional
`conditional` default, the optional `conditional_fields` allow-list, an
optional `get_serializer_class` method (whose result is `none` when the
method raises `AssertionError`) and an optional `serializer_class`
attribute. -/
structure CondView where
  conditional : Option PyCond
  conditional_fields : Option CondFieldsSpec
  get_serializer_class : Option (Option SerializerClass)
  serializer_class : Option SerializerClass

/-- Models Python `str.title()` for the label of an annotation entry:
each character that follows a non-alphabetic character is uppercased,
the others are lowercased. -/
def pyTitleAux : List Char → Bool → List Char
| [], _ => []
| c :: cs, prevAlpha =>
    (if prevAlpha then c.toLower else c.toUpper) :: pyTitleAux cs c.isAlpha

/-- Models Python `str.title()`. -/
def pyTitle (s : String) : String := String.mk (pyTitleAux s.data false)

namespace ConditionalFilter

/-- Class attribute `conditional_param = 'conditional'`. -/
def conditional_param : String := "conditional"

/-- Message of `get_default_valid_fields` with `%s` replaced by the class
name, exactly as `msg % self.__class__.__name__` produces it. -/
def improperMsg (clsName : String) : String :=
  "Cannot use " ++ clsName ++
    " on a view which does not have either a \x27serializer_class\x27, an overriding \x27get_serializer_class\x27 or \x27conditional_fields\x27 attribute."

/-- Models `ConditionalFilter.get_default_conditional`: a string attribute is
wrapped in a one-element tuple, anything else (a sequence or `None`) is
returned as is. -/
def get_default_conditional (view : CondView) : Option (List String) :=
  match view.conditional with
  | none => none
  | some (.pystr s) => some [s]
  | some (.pyseq l) => some l

/-- Models `ConditionalFilter.get_default_valid_fields`: resolve the
serializer class (the `get_serializer_class` method wins over the
`serializer_class` attribute, an `AssertionError` from the former counts as
no serializer), raise `ImproperlyConfigured` when none is found, then keep
the serializer fields that are not write-only, whose source is not `'*'`
and whose source is not a non-`pk` model property, mapping each to
`(source.replace('.', '__') or field_name, label)`. -/
def get_default_valid_fields (qs : QuerySet) (view : CondView) :
    Except PyErr (List (String × Label)) :=
  let serializer_class :=
    match view.get_serializer_class with
    | some r => r
    | none => view.serializer_class
  match serializer_class with
  | none => .error (.improperlyConfigured (improperMsg "ConditionalFilter"))
  | some sc =>
    let model_property_names := qs.model.propertyNamesOf.filter (fun a => a ≠ "pk")
    .ok ((sc.fields.filter (fun e =>
          !e.2.write_only && !(e.2.source == "*") &&
            !(model_property_names.contains e.2.source))).map
      (fun e =>
        (let src := pyReplaceDots e.2.source
         (if src = "" then e.1 else src, Label.str e.2.label))))

/-- Models `ConditionalFilter.get_valid_fields`: an explicit
`conditional_fields` attribute wins (strings are paired with themselves),
`'__all__'` expands to all model fields plus the queryset annotations, and
absence falls back to `get_default_valid_fields`. -/
def get_valid_fields (qs : QuerySet) (view : CondView) :
    Except PyErr (List (String × Label)) :=
  match view.conditional_fields with
  | none => get_default_valid_fields qs view
  | some .all =>
      .ok (qs.model.metaFieldsOf.map (fun e => (e.1, Label.str e.2)) ++
        qs.annotations.map (fun k => (k, Label.list (pySplitOnDunder (pyTitle k)))))
  | some (.list items) =>
      .ok (items.map (fun it =>
        match it with
        | .single s => (s, Label.str s)
        | .pair n lbl => (n, Label.str lbl)))

/-- Models the `term_valid` helper inside `remove_invalid_fields`: strip one
leading `-` and test membership in the valid names. -/
def term_valid (valid : List String) (term : String) : Bool :=
  valid.contains (if pyStartsDash term then pyDropFirst term else term)

/-- Models `ConditionalFilter.remove_invalid_fields`: keep the candidate
tokens whose name, after stripping one leading `-`, is among the valid field
names. -/
def remove_invalid_fields (qs : QuerySet) (fields : List String) (view : CondView) :
    Except PyErr (List String) := do
  let vf ← get_valid_fields qs view
  let valid := vf.map (·.1)
  pure (fields.filter (term_valid valid))

/-- Models `ConditionalFilter.get_conditional`: a present, non-empty
`conditional` query parameter is split on commas, each piece stripped, and
validated; an absent or empty parameter, or a validation result with no
surviving token, falls back to `get_default_conditional`. -/
def get_conditional (req : Request) (qs : QuerySet) (view : CondView) :
    Except PyErr (Option (List String)) :=
  match req.get conditional_param with
  | some s =>
    if s = "" then .ok (get_default_conditional view)
    else do
      let fields := (pySplitOnComma s).map pyStrip
      let conditional ← remove_invalid_fields qs fields view
      if conditional.isEmpty then .ok (get_default_conditional view)
      else .ok (some conditional)
  | none => .ok (get_default_conditional view)

/-- Models the indexing `condition[0]` and slicing `condition[1:]` of
`filter_queryset`: an empty token raises `IndexError`; a leading `-` maps to
the value `False` on the rest, anything else to `True` on the whole token. -/
def condSplit (condition : String) : Except PyErr (String × Bool) :=
  match condition.data with
  | [] => .error .indexError
  | c :: rest =>
      if c = '-' then .ok (String.mk rest, false)
      else .ok (condition, true)

/-- Models the predicate-construction tail of
`ConditionalFilter.filter_queryset`: with a truthy conditional list, build
`Q(**\x7bcondition__exact: value\x7d)` per token and fold them with
`operator.and_`, then apply one `.filter` call. -/
def applyConditional (conditional : Option (List String)) (qs : QuerySet) :
    Except PyErr QuerySet :=
  match conditional with
  | none => .ok qs
  | some [] => .ok qs
  | some (c :: cs) => do
      let conditions ← (c :: cs).mapM (fun condition => do
        let cv ← condSplit condition
        pure (Pred.kwleaf (cv.1 ++ "__exact") (QVal.b cv.2)))
      let p ← pyReduceAnd conditions
      .ok (qs.filter p)

/-- Models `ConditionalFilter.filter_queryset`. -/
def filter_queryset (req : Request) (qs : QuerySet) (view : CondView) :
    Except PyErr QuerySet := do
  let conditional ← get_conditional req qs view
  applyConditional conditional qs

end ConditionalFilter

/-- The host view as consumed by `FieldsFilter`: only the optional
`filter_fields` attribute is read. -/
structure FieldsView where
  filter_fields : Option (List String)

/-- Models `django.utils.text.smart_split` restricted to what this code
relies on: whitespace-delimited chunks, where a chunk opened by a quote
character runs to the matching quote (the quotes are kept in the chunk). -/
def smartSplitAux : List Char → List Char → Option Char → List (List Char)
| [], acc, _ => if acc.isEmpty then [] else [acc.reverse]
| c :: cs, acc, some q =>
    if c = q then smartSplitAux cs (c :: acc) none
    else smartSplitAux cs (c :: acc) (some q)
| c :: cs, acc, none =>
    if c.isWhitespace then
      (if acc.isEmpty then smartSplitAux cs [] none
       else acc.reverse :: smartSplitAux cs [] none)
    else if c = '"' ∨ c = '\x27' then smartSplitAux cs (c :: acc) (some c)
    else smartSplitAux cs (c :: acc) none

/-- Models the quote-stripping of `rest_framework.filters.search_smart_split`
on one chunk: a chunk whose first and last characters are the same quote
character loses both quotes. -/
def stripQuotes (t : List Char) : List Char :=
  match t with
  | [] => []
  | c :: rest =>
      if (c = '"' ∨ c = '\x27') ∧ rest.getLast? = some c then rest.dropLast
      else c :: rest

/-- Models `rest_framework.filters.search_smart_split`: split the cleaned
query value into whitespace-delimited terms with lightweight quoting
awareness, stripping the quotes of quoted phrases. -/
def search_smart_split (value : String) : List String :=
  (smartSplitAux value.data [] none).map (fun t => String.mk (stripQuotes t))

namespace FieldsFilter

/-- Class attribute `search_param`, the default of
`api_settings.SEARCH_PARAM` (unused by `filter_queryset`, which reads a
parameter named after each field instead). -/
def search_param : String := "search"

/-- Class attribute `lookup_prefixes`: the fixed prefix-to-lookup map. -/
def lookup_prefixes : List (Char × String) :=
  [('^', "istartswith"), ('=', "iexact"), ('@', "search"), ('$', "iregex")]

/-- Models `self.lookup_prefixes.get(c)`. -/
def prefixLookup (c : Char) : Option String :=
  (lookup_prefixes.find? (fun e => e.1 == c)).map (·.2)

/-- Models `FieldsFilter.get_search_fields`: simply
`getattr(view, 'filter_fields', None)`. -/
def get_search_fields (view : FieldsView) (_req : Request) : Option (List String) :=
  view.filter_fields

/-- Models `FieldsFilter.get_search_terms`: read the query parameter named
`field_param` (defaulting to the empty string), run it through a permissive
`CharField` validation (the identity on strings, since blanks are allowed
and whitespace is not trimmed) and split it with `search_smart_split`. -/
def get_search_terms (req : Request) (field_param : String) : List String :=
  let value := (req.get field_param).getD ""
  search_smart_split value

/-- Models the relation-following `for` loop of
`FieldsFilter.construct_search`; returns `true` exactly when the loop takes
the early `return field_name` branch, namely at the first path part that is
not a model field while the previously resolved field has it as a valid
lookup.  `pk` path parts are replaced by the primary-key name, and resolving
a relational field moves `opts` to the related model. -/
def searchWalk : Model → Option (Option Model × List String) → List String → Bool
| _, _, [] => false
| opts, prev, part :: parts =>
    let part := if part = "pk" then opts.pkName else part
    match opts.get_field part with
    | none =>
        match prev with
        | some pf =>
            if pf.2.contains part then true
            else searchWalk opts prev parts
        | none => searchWalk opts prev parts
    | some fld =>
        searchWalk (match fld.1 with | some m => m | none => opts) (some fld) parts

/-- Models `FieldsFilter.construct_search`: an empty field name raises
`IndexError` at `field_name[0]`; a recognized one-character prefix selects
its fixed lookup on the rest of the name; otherwise the relation walk either
returns the field name unchanged (a valid custom lookup was found) or the
name is suffixed with the default `icontains` lookup. -/
def construct_search (field_name : String) (qs : QuerySet) : Except PyErr String :=
  match field_name.data with
  | [] => .error .indexError
  | c :: rest =>
    match prefixLookup c with
    | some lookup => .ok (String.mk rest ++ "__" ++ lookup)
    | none =>
      if searchWalk qs.model none (pySplitOnDunder field_name) then .ok field_name
      else .ok (field_name ++ "__icontains")

/-- Models one iteration of the `for field in search_fields` loop of
`FieldsFilter.filter_queryset`: read the terms of the query parameter named
after the field (an empty term list skips the field via `continue`), build
the singleton `orm_lookups` via `construct_search`, build per term
`reduce(operator.or_, ...)` over that singleton of `Q(\x7borm_lookup: term\x7d)`
objects, fold the per-term groups with `operator.and_` and apply `.filter`. -/
def processField (req : Request) (qs : QuerySet) (field : String) :
    Except PyErr QuerySet :=
  let search_terms := get_search_terms req field
  if search_terms.isEmpty then .ok qs
  else do
    let orm_lookup ← construct_search field qs
    let conditions ← search_terms.mapM (fun term =>
      pyReduceOr [Pred.dictleaf orm_lookup (QVal.s term)])
    let p ← pyReduceAnd conditions
    .ok (qs.filter p)

/-- Models `FieldsFilter.filter_queryset`: with no configured (or an empty)
`filter_fields` list the queryset is returned as is; otherwise the fields
are processed in order, each one re-filtering the accumulated queryset. -/
def filter_queryset (req : Request) (qs : QuerySet) (view : FieldsView) :
    Except PyErr QuerySet :=
  match get_search_fields view req with
  | none => .ok qs
  | some search_fields =>
      if search_fields.isEmpty then .ok qs
      else search_fields.foldlM (fun q f => processField req q f) qs

end FieldsFilter

/-- Evaluation of the predicates the conditional filter builds, over a row
assigning a boolean to every field name: a `kwleaf` holds when its lookup is
an `__exact` lookup whose field has the stated value; `dictleaf` predicates
(a `dict` passed positionally to `Q`) never hold, the host ORM cannot
resolve them; conjunction and disjunction are as usual. -/
def Pred.holdsExact (row : String → Bool) : Pred → Prop
| .kwleaf l (.b v) => "__exact".data.isSuffixOf l.data = true ∧ row (l.dropRight 7) = v
| .kwleaf _ (.s _) => False
| .dictleaf _ _ => False
| .pand p q => p.holdsExact row ∧ q.holdsExact row
| .por p q => p.holdsExact row ∨ q.holdsExact row

/-! Concrete values used by witnesses and counterexamples. -/

/-- A model with no fields, no properties and primary key `id`. -/
def emptyModel : Model := .mk "id" [] [] []

/-- A queryset over `emptyModel` with nothing applied yet. -/
def emptyQS : QuerySet := ⟨emptyModel, [], []⟩

/-! Helper lemmas. -/

/-- The relation walk over the single path part `name` never takes the
early-return branch: whether or not the model has such a field, the loop
simply ends. -/
lemma searchWalk_plain_name (m : Model) :
    FieldsFilter.searchWalk m none ["name"] = false := by
  cases hm : m.get_field "name" with
  | none => simp [FieldsFilter.searchWalk, hm]
  | some fld => simp [FieldsFilter.searchWalk, hm]

/-- On any queryset, the unprefixed field name `name` resolves to the
default `icontains` lookup. -/
lemma construct_search_plain_name (qs : QuerySet) :
    FieldsFilter.construct_search "name" qs = .ok "name__icontains" := by
  unfold FieldsFilter.construct_search
  rw [show "name".data = ['n', 'a', 'm', 'e'] from rfl]
  rw [show pySplitOnDunder "name" = ["name"] from rfl]
  simp only [searchWalk_plain_name]
  rfl

/-! Claim theorems. -/

/-- C1 counterexample: with configured search fields `["name", "^code"]` and
the query `search=foo bar`, the code does not build the claimed predicate
`(name icontains foo OR code istartswith foo) AND (name icontains bar OR
code istartswith bar)`: it applies no predicate at all and returns the
input queryset unchanged, because `filter_queryset` reads each field's terms
from a query parameter named after the field itself and neither a `name`
nor a `^code` parameter is present. -/
theorem C1_search_param_counterexample :
    FieldsFilter.filter_queryset ⟨[("search", "foo bar")]⟩ emptyQS
      ⟨some ["name", "^code"]⟩ = .ok emptyQS ∧ emptyQS.applied = [] :=
  ⟨rfl, rfl⟩

/-- C1 (amended): each configured search field reads its terms from a query
parameter named after the configured field string itself; the single
`search` parameter is not consulted.  With fields `["name", "^code"]` and
query `search=foo bar` no parameter named `name` or `^code` is present, so
the queryset is returned unmodified; supplying `name=foo bar` instead
yields the per-field predicate `Q(name__icontains="foo") AND
Q(name__icontains="bar")` - terms are combined by AND against that single
field, with no OR across fields. -/
theorem C1_per_field_parameters :
    (∀ qs : QuerySet,
      FieldsFilter.filter_queryset ⟨[("search", "foo bar")]⟩ qs
        ⟨some ["name", "^code"]⟩ = .ok qs)
    ∧ (∀ qs : QuerySet,
      FieldsFilter.filter_queryset ⟨[("name", "foo bar")]⟩ qs
        ⟨some ["name", "^code"]⟩ =
        .ok (qs.filter (Pred.pand (.dictleaf "name__icontains" (.s "foo"))
          (.dictleaf "name__icontains" (.s "bar"))))) := by
  refine ⟨fun qs => rfl, fun qs => ?_⟩
  show (FieldsFilter.processField ⟨[("name", "foo bar")]⟩ qs "name").bind
      (fun q => FieldsFilter.processField ⟨[("name", "foo bar")]⟩ q "^code") = _
  rw [show FieldsFilter.processField ⟨[("name", "foo bar")]⟩ qs "name"
      = (FieldsFilter.construct_search "name" qs).bind (fun lk =>
          .ok (qs.filter (Pred.pand (.dictleaf lk (.s "foo"))
            (.dictleaf lk (.s "bar"))))) from rfl]
  rw [construct_search_plain_name]
  rfl

/-- C2: a validated token prefixed with `-` contributes the predicate
`Q(field__exact=False)` and an unprefixed token contributes
`Q(field__exact=True)`, all combined by AND; with permitted fields
`active`, `verified` and query `conditional=active,-verified,bogus`, the
applied predicate is `Q(active__exact=True) AND Q(verified__exact=False)`
(`bogus` is dropped), and it evaluates on any row exactly as
`active == true AND verified == false`. -/
theorem C2_conditional_token_predicates :
    (∀ name : String, name ≠ "" → pyStartsDash name = false →
      ConditionalFilter.condSplit name = .ok (name, true))
    ∧ (∀ name : String,
      ConditionalFilter.condSplit ("-" ++ name) = .ok (name, false))
    ∧ (∀ qs : QuerySet,
      ConditionalFilter.filter_queryset
          ⟨[("conditional", "active,-verified,bogus")]⟩ qs
          ⟨none, some (.list [.single "active", .single "verified"]), none, none⟩ =
        .ok (qs.filter (Pred.pand (.kwleaf "active__exact" (.b true))
          (.kwleaf "verified__exact" (.b false)))))
    ∧ (∀ row : String → Bool,
      (Pred.pand (.kwleaf "active__exact" (.b true))
          (.kwleaf "verified__exact" (.b false))).holdsExact row ↔
        (row "active" = true ∧ row "verified" = false)) := by
  refine ⟨?_, ?_, fun qs => rfl, ?_⟩
  · intro name hne hdash
    obtain ⟨d⟩ := name
    cases d with
    | nil => exact absurd rfl hne
    | cons c rest =>
        by_cases hc : c = '-'
        · subst hc
          simp [pyStartsDash] at hdash
        · simp [ConditionalFilter.condSplit, hc]
  · intro name
    obtain ⟨d⟩ := name
    show ConditionalFilter.condSplit ⟨'-' :: d⟩ = _
    simp [ConditionalFilter.condSplit]
  · intro row
    simp [Pred.holdsExact,
      show ("active__exact".dropRight 7) = "active" from rfl,
      show ("verified__exact".dropRight 7) = "verified" from rfl,
      show ("__exact".data.isSuffixOf "active__exact".data) = true from rfl,
      show ("__exact".data.isSuffixOf "verified__exact".data) = true from rfl]

/-- C2 witness: concrete tokens for the general conjuncts. -/
theorem C2_conditional_token_predicates_witness :
    ConditionalFilter.condSplit "active" = .ok ("active", true)
    ∧ ConditionalFilter.condSplit ("-" ++ "verified") = .ok ("verified", false) :=
  ⟨C2_conditional_token_predicates.1 "active" (by decide) (by decide),
    C2_conditional_token_predicates.2.1 "verified"⟩

/-- C8: when the view configures no search fields (absent or empty
`filter_fields`), the search filter's `filter_queryset` returns the input
queryset unmodified, for every request and queryset. -/
theorem C8_no_search_fields_identity (req : Request) (qs : QuerySet)
    (view : FieldsView)
    (h : view.filter_fields = none ∨ view.filter_fields = some []) :
    FieldsFilter.filter_queryset req qs view = .ok qs := by
  rcases h with h | h <;>
    simp [FieldsFilter.filter_queryset, FieldsFilter.get_search_fields, h]

/-- C8 witness: a concrete view with no `filter_fields` attribute. -/
theorem C8_no_search_fields_identity_witness :
    FieldsFilter.filter_queryset ⟨[("search", "x")]⟩ emptyQS ⟨none⟩ =
      .ok emptyQS :=
  C8_no_search_fields_identity ⟨[("search", "x")]⟩ emptyQS ⟨none⟩ (Or.inl rfl)

/-- C3: whenever the permitted fields resolve, `remove_invalid_fields`
returns, without any error, exactly the comma-delimited tokens whose name
after stripping one leading `-` is a permitted field name, in their original
order; a token whose stripped name is not permitted never survives. -/
theorem C3_invalid_tokens_dropped (qs : QuerySet) (view : CondView)
    (fields : List String) (vf : List (String × Label))
    (h : ConditionalFilter.get_valid_fields qs view = .ok vf) :
    ConditionalFilter.remove_invalid_fields qs fields view =
      .ok (fields.filter (ConditionalFilter.term_valid (vf.map (·.1))))
    ∧ ∀ t ∈ fields,
        (vf.map (·.1)).contains (if pyStartsDash t then pyDropFirst t else t)
            = false →
        t ∉ fields.filter (ConditionalFilter.term_valid (vf.map (·.1))) := by
  refine ⟨by simp [ConditionalFilter.remove_invalid_fields, h], ?_⟩
  intro t _ hc hmem
  have := List.of_mem_filter hmem
  rw [ConditionalFilter.term_valid] at this
  rw [hc] at this
  exact Bool.false_ne_true this

/-- C3 witness: `bogus` is dropped, `active` and `-verified` survive, and no
error is raised. -/
theorem C3_invalid_tokens_dropped_witness :
    ConditionalFilter.remove_invalid_fields emptyQS
        ["active", "-verified", "bogus"]
        ⟨none, some (.list [.single "active", .single "verified"]), none, none⟩ =
      .ok (["active", "-verified", "bogus"].filter
        (ConditionalFilter.term_valid ["active", "verified"])) :=
  (C3_invalid_tokens_dropped emptyQS
    ⟨none, some (.list [.single "active", .single "verified"]), none, none⟩
    ["active", "-verified", "bogus"]
    [("active", .str "active"), ("verified", .str "verified")] rfl).1

/-- C4: with no `conditional` query parameter, `get_conditional` falls back
to the view's default conditional; the same fallback happens when every
supplied token is invalid; and if additionally the view declares no default,
`filter_queryset` returns the input queryset unmodified. -/
theorem C4_fallback_to_default :
    (∀ (req : Request) (qs : QuerySet) (view : CondView),
      req.get ConditionalFilter.conditional_param = none →
      ConditionalFilter.get_conditional req qs view =
        .ok (ConditionalFilter.get_default_conditional view))
    ∧ (∀ (req : Request) (qs : QuerySet) (view : CondView) (s : String)
        (vf : List (String × Label)),
      req.get ConditionalFilter.conditional_param = some s →
      ConditionalFilter.get_valid_fields qs view = .ok vf →
      (∀ t ∈ (pySplitOnComma s).map pyStrip,
        ConditionalFilter.term_valid (vf.map (·.1)) t = false) →
      ConditionalFilter.get_conditional req qs view =
        .ok (ConditionalFilter.get_default_conditional view))
    ∧ (∀ (req : Request) (qs : QuerySet) (view : CondView),
      req.get ConditionalFilter.conditional_param = none →
      view.conditional = none →
      ConditionalFilter.filter_queryset req qs view = .ok qs) := by
  refine ⟨?_, ?_, ?_⟩
  · intro req qs view h
    simp [ConditionalFilter.get_conditional, h]
  · intro req qs view s vf hreq hvf hall
    by_cases hs : s = ""
    · rw [ConditionalFilter.get_conditional, hreq]
      simp only []
      rw [if_pos hs]
    · have hfil : ((pySplitOnComma s).map pyStrip).filter
          (ConditionalFilter.term_valid (vf.map (·.1))) = [] := by
        rw [List.filter_eq_nil_iff]
        intro a ha
        rw [hall a ha]
        exact Bool.false_ne_true
      have hri : ConditionalFilter.remove_invalid_fields qs
          ((pySplitOnComma s).map pyStrip) view = .ok [] := by
        simp [ConditionalFilter.remove_invalid_fields, hvf, hfil]
      rw [ConditionalFilter.get_conditional, hreq]
      simp only []
      rw [if_neg hs]
      simp only [hri]
      rfl
  · intro req qs view hreq hcond
    have h1 : ConditionalFilter.get_conditional req qs view = .ok none := by
      simp [ConditionalFilter.get_conditional, hreq,
        ConditionalFilter.get_default_conditional, hcond]
    unfold ConditionalFilter.filter_queryset
    rw [h1]
    rfl

/-- C4 witness: a request without the parameter, a view with a string
default, and a view with no default. -/
theorem C4_fallback_to_default_witness :
    ConditionalFilter.get_conditional ⟨[]⟩ emptyQS
        ⟨some (.pystr "active"), some (.list []), none, none⟩ =
      .ok (some ["active"])
    ∧ ConditionalFilter.get_conditional ⟨[("conditional", "bogus")]⟩ emptyQS
        ⟨none, some (.list [.single "active"]), none, none⟩ = .ok none
    ∧ ConditionalFilter.filter_queryset ⟨[]⟩ emptyQS
        ⟨none, some (.list []), none, none⟩ = .ok emptyQS :=
  ⟨C4_fallback_to_default.1 ⟨[]⟩ emptyQS
      ⟨some (.pystr "active"), some (.list []), none, none⟩ rfl,
    C4_fallback_to_default.2.1 ⟨[("conditional", "bogus")]⟩ emptyQS
      ⟨none, some (.list [.single "active"]), none, none⟩ "bogus"
      [("active", .str "active")] rfl rfl (by decide),
    C4_fallback_to_default.2.2 ⟨[]⟩ emptyQS ⟨none, some (.list []), none, none⟩
      rfl rfl⟩

/-- C6: a view with no explicit `conditional_fields` and no resolvable
serializer makes `get_valid_fields` raise `ImproperlyConfigured` with a
message that names the filter class `ConditionalFilter`; the error is
raised, not silently swallowed: a request that supplies a conditional
parameter surfaces it from `filter_queryset`. -/
theorem C6_missing_serializer_raises (qs : QuerySet) (view : CondView)
    (h1 : view.conditional_fields = none)
    (h2 : view.get_serializer_class = some none ∨
      (view.get_serializer_class = none ∧ view.serializer_class = none)) :
    ConditionalFilter.get_valid_fields qs view =
      .error (.improperlyConfigured
        (ConditionalFilter.improperMsg "ConditionalFilter"))
    ∧ ConditionalFilter.improperMsg "ConditionalFilter" =
        "Cannot use " ++ "ConditionalFilter" ++
          " on a view which does not have either a \x27serializer_class\x27, an overriding \x27get_serializer_class\x27 or \x27conditional_fields\x27 attribute."
    ∧ (∀ (req : Request) (s : String),
        req.get ConditionalFilter.conditional_param = some s → s ≠ "" →
        ConditionalFilter.filter_queryset req qs view =
          .error (.improperlyConfigured
            (ConditionalFilter.improperMsg "ConditionalFilter"))) := by
  have herr : ConditionalFilter.get_valid_fields qs view =
      .error (.improperlyConfigured
        (ConditionalFilter.improperMsg "ConditionalFilter")) := by
    rcases h2 with h2 | ⟨h2, h3⟩ <;>
      simp [ConditionalFilter.get_valid_fields, h1,
        ConditionalFilter.get_default_valid_fields, h2, *]
  refine ⟨herr, rfl, ?_⟩
  intro req s hreq hs
  unfold ConditionalFilter.filter_queryset ConditionalFilter.get_conditional
  rw [hreq]
  simp only []
  rw [if_neg hs]
  simp only [ConditionalFilter.remove_invalid_fields, herr]
  rfl

/-- The name component of an explicit `conditional_fields` entry. -/
def condItemName : CondFieldItem → String
| .single s => s
| .pair n _ => n

/-- A token accepted by `term_valid` is non-empty whenever every valid field
name is non-empty. -/
lemma term_valid_ne_empty {names : List String} (hn : ∀ n ∈ names, n ≠ "")
    {t : String} (h : ConditionalFilter.term_valid names t = true) : t ≠ "" := by
  intro ht
  subst ht
  rw [ConditionalFilter.term_valid] at h
  have h2 : names.contains "" = true := by simpa [pyStartsDash] using h
  have h3 : ("" : String) ∈ names := by
    simpa [List.contains, List.elem_eq_mem] using h2
  exact hn "" h3 rfl

/-- `condSplit` succeeds on every non-empty token. -/
lemma condSplit_ok {t : String} (h : t ≠ "") :
    ∃ r, ConditionalFilter.condSplit t = .ok r := by
  obtain ⟨d⟩ := t
  cases d with
  | nil => exact absurd rfl h
  | cons c rest =>
      by_cases hc : c = '-'
      · subst hc
        exact ⟨(String.mk rest, false), rfl⟩
      · exact ⟨(⟨c :: rest⟩, true), by simp [ConditionalFilter.condSplit, hc]⟩

/-- `List.mapM` over `Except` succeeds, preserving length, when the function
succeeds on every element. -/
lemma exceptMapM_ok {α β : Type} (f : α → Except PyErr β) :
    ∀ l : List α, (∀ a ∈ l, ∃ b, f a = .ok b) →
    ∃ bs : List β, l.mapM f = .ok bs ∧ bs.length = l.length := by
  intro l
  induction l with
  | nil => exact fun _ => ⟨[], rfl, rfl⟩
  | cons a as ih =>
      intro h
      obtain ⟨b, hb⟩ := h a (List.mem_cons_self a as)
      obtain ⟨bs, hbs, hlen⟩ := ih (fun x hx => h x (List.mem_cons_of_mem a hx))
      refine ⟨b :: bs, ?_, by simp [hlen]⟩
      rw [List.mapM_cons, hb, hbs]
      rfl

/-- The predicate-construction branch succeeds on every conditional list of
non-empty tokens. -/
lemma applyConditional_ok (conditional : Option (List String)) (qs : QuerySet)
    (h : ∀ t ∈ conditional.getD [], t ≠ "") :
    ∃ qs2, ConditionalFilter.applyConditional conditional qs = .ok qs2 := by
  match conditional with
  | none => exact ⟨qs, rfl⟩
  | some [] => exact ⟨qs, rfl⟩
  | some (c :: cs) =>
      have h' : ∀ t ∈ c :: cs, t ≠ "" := by simpa using h
      obtain ⟨bs, hbs, hlen⟩ := exceptMapM_ok
        (fun condition => (do
          let cv ← ConditionalFilter.condSplit condition
          pure (Pred.kwleaf (cv.1 ++ "__exact") (QVal.b cv.2)) :
            Except PyErr Pred)) (c :: cs)
        (fun a ha => by
          obtain ⟨r, hr⟩ := condSplit_ok (h' a ha)
          refine ⟨Pred.kwleaf (r.1 ++ "__exact") (QVal.b r.2), ?_⟩
          show (do
            let cv ← ConditionalFilter.condSplit a
            pure (Pred.kwleaf (cv.1 ++ "__exact") (QVal.b cv.2)) :
              Except PyErr Pred) = _
          rw [hr]
          rfl)
      cases bs with
      | nil => simp at hlen
      | cons b bs2 =>
          refine ⟨qs.filter (bs2.foldl Pred.pand b), ?_⟩
          unfold ConditionalFilter.applyConditional
          simp only []
          rw [hbs]
          rfl

/-- Whatever the request, `get_conditional` either yields the view default
or a list every member of which passed `term_valid`. -/
lemma get_conditional_cases (req : Request) (qs : QuerySet) (view : CondView)
    (vf : List (String × Label))
    (hvf : ConditionalFilter.get_valid_fields qs view = .ok vf) :
    ∃ c, ConditionalFilter.get_conditional req qs view = .ok c ∧
      (c = ConditionalFilter.get_default_conditional view ∨
        ∃ out, c = some out ∧
          ∀ t ∈ out, ConditionalFilter.term_valid (vf.map (·.1)) t = true) := by
  cases hreq : req.get ConditionalFilter.conditional_param with
  | none =>
      refine ⟨_, ?_, Or.inl rfl⟩
      rw [ConditionalFilter.get_conditional, hreq]
  | some s =>
      rw [ConditionalFilter.get_conditional, hreq]
      simp only []
      by_cases hs : s = ""
      · rw [if_pos hs]
        exact ⟨_, rfl, Or.inl rfl⟩
      · rw [if_neg hs]
        have hri : ConditionalFilter.remove_invalid_fields qs
            ((pySplitOnComma s).map pyStrip) view =
            .ok (((pySplitOnComma s).map pyStrip).filter
              (ConditionalFilter.term_valid (vf.map (·.1)))) := by
          simp [ConditionalFilter.remove_invalid_fields, hvf]
        simp only [hri]
        set fil := ((pySplitOnComma s).map pyStrip).filter
          (ConditionalFilter.term_valid (vf.map (·.1))) with hfil
        show ∃ c, (if fil.isEmpty = true then
            Except.ok (ConditionalFilter.get_default_conditional view)
          else Except.ok (some fil) : Except PyErr (Option (List String))) =
            .ok c ∧ _
        by_cases hemp : fil.isEmpty
        · rw [if_pos hemp]
          exact ⟨_, rfl, Or.inl rfl⟩
        · rw [if_neg hemp]
          refine ⟨some fil, rfl, Or.inr ⟨fil, rfl, ?_⟩⟩
          intro t ht
          rw [hfil] at ht
          exact List.of_mem_filter ht

/-- C10: with non-empty permitted field names, every token surviving
`remove_invalid_fields` is non-empty; the predicate-construction loop of
`filter_queryset` therefore never indexes `condition[0]` on an empty string:
it succeeds on any list of non-empty tokens, and for a view with an
explicit allow-list of non-empty names (and a well-formed default), the
whole of `filter_queryset` succeeds on every comma-delimited input,
including inputs with empty or whitespace-only segments. -/
theorem C10_negation_test_total :
    (∀ (qs : QuerySet) (view : CondView) (fields : List String)
        (vf : List (String × Label)) (out : List String),
      ConditionalFilter.get_valid_fields qs view = .ok vf →
      (∀ p ∈ vf, p.1 ≠ "") →
      ConditionalFilter.remove_invalid_fields qs fields view = .ok out →
      ∀ t ∈ out, t ≠ "")
    ∧ (∀ (l : List String) (qs : QuerySet), (∀ t ∈ l, t ≠ "") →
      ∃ qs2, ConditionalFilter.applyConditional (some l) qs = .ok qs2)
    ∧ (∀ (items : List CondFieldItem) (dflt : Option PyCond)
        (gsc : Option (Option SerializerClass)) (sc : Option SerializerClass)
        (params : String) (qs : QuerySet),
      (∀ it ∈ items, condItemName it ≠ "") →
      (∀ t ∈ (ConditionalFilter.get_default_conditional
          ⟨dflt, some (.list items), gsc, sc⟩).getD [], t ≠ "") →
      ∃ qs2, ConditionalFilter.filter_queryset
          ⟨[(ConditionalFilter.conditional_param, params)]⟩ qs
          ⟨dflt, some (.list items), gsc, sc⟩ = .ok qs2) := by
  have hnames : ∀ (items : List CondFieldItem),
      (∀ it ∈ items, condItemName it ≠ "") →
      ∀ n ∈ (items.map (fun it =>
        match it with
        | CondFieldItem.single s => (s, Label.str s)
        | CondFieldItem.pair n lbl => (n, Label.str lbl))).map (·.1), n ≠ "" := by
    intro items hit n hn
    simp only [List.map_map, List.mem_map] at hn
    obtain ⟨it, hmem, heq⟩ := hn
    have : condItemName it = n := by
      cases it <;> simpa [condItemName] using heq
    rw [← this]
    exact hit it hmem
  have part1 : ∀ (qs : QuerySet) (view : CondView) (fields : List String)
      (vf : List (String × Label)) (out : List String),
      ConditionalFilter.get_valid_fields qs view = .ok vf →
      (∀ p ∈ vf, p.1 ≠ "") →
      ConditionalFilter.remove_invalid_fields qs fields view = .ok out →
      ∀ t ∈ out, t ≠ "" := by
    intro qs view fields vf out hvf hp hout t ht
    have heq : out = fields.filter
        (ConditionalFilter.term_valid (vf.map (·.1))) := by
      have := hout.symm.trans
        (by simp [ConditionalFilter.remove_invalid_fields, hvf] :
          ConditionalFilter.remove_invalid_fields qs fields view =
            .ok (fields.filter (ConditionalFilter.term_valid (vf.map (·.1)))))
      simpa using this
    subst heq
    have hvalid := List.of_mem_filter ht
    refine term_valid_ne_empty ?_ hvalid
    intro n hn
    simp only [List.mem_map] at hn
    obtain ⟨p, hpmem, hpeq⟩ := hn
    rw [← hpeq]
    exact hp p hpmem
  refine ⟨part1, ?_, ?_⟩
  · intro l qs hl
    exact applyConditional_ok (some l) qs (by simpa using hl)
  · intro items dflt gsc sc params qs hit hdef
    set view : CondView := ⟨dflt, some (.list items), gsc, sc⟩ with hview
    have hvf : ConditionalFilter.get_valid_fields qs view =
        .ok (items.map (fun it =>
          match it with
          | CondFieldItem.single s => (s, Label.str s)
          | CondFieldItem.pair n lbl => (n, Label.str lbl))) := rfl
    have hnm := hnames items hit
    rcases get_conditional_cases
        ⟨[(ConditionalFilter.conditional_param, params)]⟩ qs view _ hvf with
      ⟨c, hc, hok⟩
    have htok : ∀ t ∈ c.getD [], t ≠ "" := by
      rcases hok with rfl | ⟨out, rfl, hvalid⟩
      · exact hdef
      · intro t ht
        exact term_valid_ne_empty hnm (hvalid t (by simpa using ht))
    obtain ⟨qs2, hqs2⟩ := applyConditional_ok c qs htok
    refine ⟨qs2, ?_⟩
    unfold ConditionalFilter.filter_queryset
    rw [hc]
    exact hqs2

/-- C6 witness: a fully unconfigured view and a request supplying
`conditional=active`. -/
theorem C6_missing_serializer_raises_witness :
    ConditionalFilter.get_valid_fields emptyQS ⟨none, none, none, none⟩ =
      .error (.improperlyConfigured
        (ConditionalFilter.improperMsg "ConditionalFilter"))
    ∧ ConditionalFilter.filter_queryset ⟨[("conditional", "active")]⟩ emptyQS
        ⟨none, none, none, none⟩ =
      .error (.improperlyConfigured
        (ConditionalFilter.improperMsg "ConditionalFilter")) :=
  ⟨(C6_missing_serializer_raises emptyQS ⟨none, none, none, none⟩ rfl
      (Or.inr ⟨rfl, rfl⟩)).1,
    (C6_missing_serializer_raises emptyQS ⟨none, none, none, none⟩ rfl
      (Or.inr ⟨rfl, rfl⟩)).2.2 ⟨[("conditional", "active")]⟩ "active" rfl
      (by decide)⟩


/-- C10 witness: a messy comma-delimited input with empty, whitespace-only,
invalid and negated segments on a view with allow-list `["active"]` and no
default conditional. -/
theorem C10_negation_test_total_witness :
    ∃ qs2, ConditionalFilter.filter_queryset
        ⟨[(ConditionalFilter.conditional_param, ",, ,bogus,-active,")]⟩ emptyQS
        ⟨none, some (.list [.single "active"]), none, none⟩ = .ok qs2 :=
  C10_negation_test_total.2.2 [.single "active"] none none none
    ",, ,bogus,-active," emptyQS (by decide) (by decide)

/-- The whitespace-splitting of `search_smart_split` yields nothing on
all-whitespace input. -/
lemma smartSplitAux_all_ws : ∀ cs : List Char, (∀ c ∈ cs, c.isWhitespace) →
    smartSplitAux cs [] none = [] := by
  intro cs
  induction cs with
  | nil => intro _; rfl
  | cons c cs ih =>
      intro h
      have hc : c.isWhitespace := h c (List.mem_cons_self c cs)
      simp [smartSplitAux, hc, ih (fun x hx => h x (List.mem_cons_of_mem c hx))]

/-- C9: a field whose term list is empty contributes nothing: the loop body
`continue`s and hands the queryset on unchanged; and a whitespace-only
query value splits into no terms at all. -/
theorem C9_empty_terms_skip_field :
    (∀ (req : Request) (qs : QuerySet) (field : String),
      FieldsFilter.get_search_terms req field = [] →
      FieldsFilter.processField req qs field = .ok qs)
    ∧ (∀ s : String, s.data.all Char.isWhitespace = true →
      search_smart_split s = []) := by
  constructor
  · intro req qs field h
    simp [FieldsFilter.processField, h]
  · intro s hws
    rw [search_smart_split, smartSplitAux_all_ws s.data (by simpa using hws)]
    rfl

/-- C9 witness: a whitespace-only value for the parameter named after the
field, and the split of a whitespace-only string. -/
theorem C9_empty_terms_skip_field_witness :
    FieldsFilter.processField ⟨[("name", " \t ")]⟩ emptyQS "name" = .ok emptyQS
    ∧ search_smart_split " \t " = [] :=
  ⟨C9_empty_terms_skip_field.1 ⟨[("name", " \t ")]⟩ emptyQS "name" rfl,
    C9_empty_terms_skip_field.2 " \t " (by decide)⟩

/-- C5: a recognized one-character prefix always selects its fixed lookup on
the rest of the field name, whatever the model's relation structure; and an
unprefixed name whose relation walk finds no valid custom lookup gets the
default `icontains` lookup appended. -/
theorem C5_lookup_selection :
    (∀ (c : Char) (rest : List Char) (lk : String) (qs : QuerySet),
      FieldsFilter.prefixLookup c = some lk →
      FieldsFilter.construct_search (String.mk (c :: rest)) qs =
        .ok (String.mk rest ++ "__" ++ lk))
    ∧ (∀ (name : String) (qs : QuerySet) (c : Char) (rest : List Char),
      name.data = c :: rest →
      FieldsFilter.prefixLookup c = none →
      FieldsFilter.searchWalk qs.model none (pySplitOnDunder name) = false →
      FieldsFilter.construct_search name qs = .ok (name ++ "__icontains")) := by
  constructor
  · intro c rest lk qs h
    unfold FieldsFilter.construct_search
    rw [show (String.mk (c :: rest)).data = c :: rest from rfl]
    simp only []
    rw [h]
  · intro name qs c rest hdata hpre hwalk
    unfold FieldsFilter.construct_search
    rw [hdata]
    simp only []
    rw [hpre]
    simp only []
    rw [hwalk]
    rfl

/-- C5 witness: `^code` maps to `istartswith` on `code`, and the plain name
`name` on a model with no such field maps to `icontains`. -/
theorem C5_lookup_selection_witness :
    FieldsFilter.construct_search (String.mk ('^' :: ['c', 'o', 'd', 'e']))
        emptyQS = .ok (String.mk ['c', 'o', 'd', 'e'] ++ "__" ++ "istartswith")
    ∧ FieldsFilter.construct_search "name" emptyQS =
        .ok ("name" ++ "__icontains") :=
  ⟨C5_lookup_selection.1 '^' ['c', 'o', 'd', 'e'] "istartswith" emptyQS rfl,
    C5_lookup_selection.2 "name" emptyQS 'n' ['a', 'm', 'e'] rfl rfl
      (by decide)⟩

/-- Follows the specification words for the serializer-derived branch of
permitted-field resolution, with no further exclusions: the declared fields
that are not write-only and whose source is not the wildcard `*`. -/
def specSerializerDerivedFields (sc : SerializerClass) : List (String × Label) :=
  (sc.fields.filter (fun e => !e.2.write_only && !(e.2.source == "*"))).map
    (fun e =>
      (let src := pyReplaceDots e.2.source
       (if src = "" then e.1 else src, Label.str e.2.label)))

/-- The amended serializer-derived branch: the specification words plus the
code's additional exclusion of fields whose source is a non-`pk` property of
the model class. -/
def amendedSerializerDerivedFields (sc : SerializerClass) (props : List String) :
    List (String × Label) :=
  (sc.fields.filter (fun e =>
      !e.2.write_only && !(e.2.source == "*") &&
        !((props.filter (fun a => a ≠ "pk")).contains e.2.source))).map
    (fun e =>
      (let src := pyReplaceDots e.2.source
       (if src = "" then e.1 else src, Label.str e.2.label)))

/-- The serializer of the C7 counterexample: one readable field whose source
is the model property `full_name`. -/
def serC7 : SerializerClass := ⟨[("full_name", ⟨"full_name", "Full name", false⟩)]⟩

/-- A queryset whose model class has a `full_name` property. -/
def qsC7 : QuerySet := ⟨.mk "id" [] ["full_name"] [], [], []⟩

/-- A view with no explicit allow-list whose serializer is `serC7`. -/
def viewC7 : CondView := ⟨none, none, none, some serC7⟩

/-- C7 counterexample: a serializer field that is neither write-only nor
wildcard-sourced, so the claim admits it, is nevertheless excluded because
its source is a property of the model class: the resolved permitted fields
are empty rather than the claimed serializer-derived list. -/
theorem C7_property_source_counterexample :
    ConditionalFilter.get_valid_fields qsC7 viewC7 = .ok []
    ∧ specSerializerDerivedFields serC7 = [("full_name", .str "Full name")]
    ∧ ConditionalFilter.get_valid_fields qsC7 viewC7 ≠
        .ok (specSerializerDerivedFields serC7) := by
  refine ⟨rfl, rfl, ?_⟩
  intro h
  rw [show ConditionalFilter.get_valid_fields qsC7 viewC7 = .ok [] from rfl] at h
  rw [show specSerializerDerivedFields serC7 =
    [("full_name", .str "Full name")] from rfl] at h
  simp at h

/-- C7 (amended): permitted-field resolution precedence: an explicit
allow-list is used as given (bare strings paired with themselves); the
sentinel `__all__` expands to all model fields plus the queryset's
annotations; otherwise the fields derive from the serializer's declared
fields that are not write-only, whose source is not `*`, and - beyond the
original claim - whose source is not a non-`pk` property of the model
class; when no declared source is such a property the result coincides with
the specification's own derivation. -/
theorem C7_valid_field_resolution (qs : QuerySet) (view : CondView) :
    (∀ items, view.conditional_fields = some (.list items) →
      ConditionalFilter.get_valid_fields qs view = .ok (items.map (fun it =>
        match it with
        | CondFieldItem.single s => (s, Label.str s)
        | CondFieldItem.pair n lbl => (n, Label.str lbl))))
    ∧ (view.conditional_fields = some .all →
      ConditionalFilter.get_valid_fields qs view =
        .ok (qs.model.metaFieldsOf.map (fun e => (e.1, Label.str e.2)) ++
          qs.annotations.map (fun k =>
            (k, Label.list (pySplitOnDunder (pyTitle k))))))
    ∧ (∀ sc, view.conditional_fields = none →
      (view.get_serializer_class = some (some sc) ∨
        (view.get_serializer_class = none ∧ view.serializer_class = some sc)) →
      ConditionalFilter.get_valid_fields qs view =
        .ok (amendedSerializerDerivedFields sc qs.model.propertyNamesOf)
      ∧ ((∀ e ∈ sc.fields,
          (qs.model.propertyNamesOf.filter (fun a => a ≠ "pk")).contains
            e.2.source = false) →
        ConditionalFilter.get_valid_fields qs view =
          .ok (specSerializerDerivedFields sc))) := by
  refine ⟨?_, ?_, ?_⟩
  · intro items h
    simp [ConditionalFilter.get_valid_fields, h]
  · intro h
    simp [ConditionalFilter.get_valid_fields, h]
  · intro sc hnone hser
    have hres : ConditionalFilter.get_valid_fields qs view =
        .ok (amendedSerializerDerivedFields sc qs.model.propertyNamesOf) := by
      rcases hser with h | ⟨h1, h2⟩
      · simp [ConditionalFilter.get_valid_fields, hnone,
          ConditionalFilter.get_default_valid_fields,
          amendedSerializerDerivedFields, h]
      · simp [ConditionalFilter.get_valid_fields, hnone,
          ConditionalFilter.get_default_valid_fields,
          amendedSerializerDerivedFields, h1, h2]
    refine ⟨hres, ?_⟩
    intro hprop
    rw [hres]
    congr 1
    unfold amendedSerializerDerivedFields specSerializerDerivedFields
    congr 1
    apply List.filter_congr
    intro e he
    rw [hprop e he]
    simp

/-- C7 witness: the amended derivation applied to the counterexample view,
and the `__all__` expansion on a concrete model. -/
theorem C7_valid_field_resolution_witness :
    ConditionalFilter.get_valid_fields qsC7 viewC7 =
      .ok (amendedSerializerDerivedFields serC7 ["full_name"])
    ∧ ConditionalFilter.get_valid_fields
        ⟨.mk "id" [] [] [("id", "Id")], ["total__count"], []⟩
        ⟨none, some .all, none, none⟩ =
      .ok ([("id", Label.str "Id")] ++
        [("total__count", Label.list (pySplitOnDunder (pyTitle "total__count")))]) :=
  ⟨((C7_valid_field_resolution qsC7 viewC7).2.2 serC7 rfl
      (Or.inr ⟨rfl, rfl⟩)).1,
    (C7_valid_field_resolution ⟨.mk "id" [] [] [("id", "Id")], ["total__count"], []⟩
      ⟨none, some .all, none, none⟩).2.1 rfl⟩

end DrfPlus
